import Mathlib

/-!
The slot store of `xub` (`src/main.go`).

A shallow embedding of the in-memory slot store (`slots` and its four methods
`NewMsg`, `GetMsg`, `Ack`, `GetAck`) together with the properties of the
store that follow from the code.

Modelling conventions.

* A Go pointer that may be `nil` (`*message`) is an `Option`.
* `map[string]*slot` is a finite map from strings to slot values.  Every
  `*slot` stored in the map is allocated by `NewMsg` (`&slot{msg: m}`) and is
  reachable only through the key it was stored under, so the update
  `slot.ack = ack` through the pointer is the update of the value held under
  that key.  A missing key reads as `nil`, which is `none` here.
* Every method has the receiver `s *slots`; here it takes the store and
  returns its result paired with the store it leaves behind.
* Every method body runs between `s.lock.Lock()` and the deferred
  `s.lock.Unlock()`; the mutex itself is not part of the model, each method
  is one step of a sequential execution.
* `uuid.Must(uuid.NewRandom()).String()` is the only call that leaves the
  repository: its outcome (the identifier string, or the error on which
  `uuid.Must` panics) is an argument of `NewMsg`.
-/

namespace Xub

set_option linter.dupNamespace false

/-- The Go struct `message`: the payload bytes and the content type. -/
structure message where
  data : List UInt8
  contentType : String
  deriving DecidableEq, Repr

/-- The Go struct `slot`: the original message and the acknowledgment, both
pointers that may be `nil`. -/
structure slot where
  msg : Option message
  ack : Option message
  deriving DecidableEq, Repr

/-- The Go struct `slots`: the map from identifiers to slots. -/
structure slots where
  slots : Finmap (fun _ : String => slot)
  deriving DecidableEq

/-- Go `newSlots`: the store with an empty map. -/
def newSlots : slots :=
  { slots := ∅ }

/-- Go `(*slots).NewMsg`.  `gen` is the outcome of `uuid.NewRandom()` rendered
by `String()`: `.ok id`, or `.error e` when the random source fails, in which
case `uuid.Must` panics before the store is touched.  Otherwise the slot
`&slot{msg: m}` (its `ack` is `nil`) is stored under `id`, replacing whatever
was there, and `id` is returned. -/
def NewMsg (s : slots) (gen : Except String String) (m : Option message) :
    Except String String × slots :=
  match gen with
  | .error e => (.error e, s)
  | .ok id => (.ok id, { slots := s.slots.insert id { msg := m, ack := none } })

/-- Go `(*slots).GetMsg`: the `msg` of the slot under `id`, `nil` when there is
no slot. -/
def GetMsg (s : slots) (id : String) : Option message × slots :=
  match s.slots.lookup id with
  | some slot => (slot.msg, s)
  | none => (none, s)

/-- Go `(*slots).Ack`: `false` when there is no slot under `id`; otherwise the
slot's `ack` is overwritten and the result is `true`. -/
def Ack (s : slots) (id : String) (ack : Option message) : Bool × slots :=
  match s.slots.lookup id with
  | none => (false, s)
  | some slot => (true, { slots := s.slots.insert id { slot with ack := ack } })

/-- Go `(*slots).GetAck`: `nil` when there is no slot under `id`, otherwise the
slot's `ack`. -/
def GetAck (s : slots) (id : String) : Option message × slots :=
  match s.slots.lookup id with
  | none => (none, s)
  | some slot => (slot.ack, s)

/-- Number of entries of the map (Go `len(s.slots)`). -/
def len (s : slots) : Nat :=
  s.slots.keys.card

/-- One call on the store, as issued by a client of the four methods. -/
inductive Op where
  | newMsg (gen : Except String String) (m : Option message)
  | getMsg (id : String)
  | ack (id : String) (a : Option message)
  | getAck (id : String)

/-- The store left behind by one call. -/
def step (s : slots) : Op → slots
  | .newMsg gen m => (NewMsg s gen m).2
  | .getMsg id => (GetMsg s id).2
  | .ack id a => (Ack s id a).2
  | .getAck id => (GetAck s id).2

/-- The store left behind by a sequence of calls, executed from left to
right. -/
def run (s : slots) (ops : List Op) : slots :=
  ops.foldl step s

/-- The identifiers returned by the `NewMsg` calls of a sequence of calls
executed from the store `s`. -/
def returned (s : slots) : List Op → List String
  | [] => []
  | .newMsg gen m :: ops =>
    match (NewMsg s gen m).1 with
    | .ok id => id :: returned (NewMsg s gen m).2 ops
    | .error _ => returned (NewMsg s gen m).2 ops
  | op :: ops => returned (step s op) ops

/-! ## Sample values -/

/-- The message `"hello"` of type `text/plain`. -/
def helloMsg : message :=
  { data := [104, 101, 108, 108, 111], contentType := "text/plain" }

/-- The message `"world"` with no content type. -/
def worldMsg : message :=
  { data := [119, 111, 114, 108, 100], contentType := "" }

/-- The message with no bytes and no content type. -/
def emptyMsg : message :=
  { data := [], contentType := "" }

/-- The store after one `NewMsg` of `helloMsg` that drew the identifier `"a"`. -/
def oneSlot : slots :=
  (NewMsg newSlots (.ok "a") (some helloMsg)).2

/-- The store after a `NewMsg` of `helloMsg` that drew `"a"` followed by a
`NewMsg` of `worldMsg` that drew `"b"`. -/
def twoSlots : slots :=
  (NewMsg oneSlot (.ok "b") (some worldMsg)).2

/-- The calls `NewMsg` for a list of creations, in the order of the list: each
pairs the identifier the generator yields with the message created. -/
def creates (l : List (String × message)) : List Op :=
  l.map fun p => Op.newMsg (.ok p.1) (some p.2)

/-! ## The HTTP handlers of `main`

The handlers are the four closures registered in `main`; each captures the
store.  Of `net/http` the model keeps what a handler tells its
`http.ResponseWriter`: the headers it sets before the status line is written,
the status code (200 when the first `Write` comes before any `WriteHeader`)
and the bytes written.  Headers the server adds by itself and failures of the
connection while writing are outside the model. -/

/-- The parts of a `*http.Request` that the handlers read: `mux.Vars(req)["id"]`,
the outcome of `ioutil.ReadAll(req.Body)` (the bytes, or the text of the
error), and the value of the `Content-Type` header (`none` when the request
has no such header). -/
structure Request where
  id : String
  body : Except String (List UInt8)
  contentType : Option String

/-- Go `req.Header.Get("content-type")`: the value of the header, the empty
string when the header is absent. -/
def Request.headerGet (req : Request) : String :=
  req.contentType.getD ""

/-- What a handler has told its `http.ResponseWriter`: the response headers,
the status code once the status line is written, and the body. -/
structure ResponseWriter where
  header : List (String × String)
  code : Option Nat
  body : List UInt8
  deriving DecidableEq, Repr

/-- The writer a handler is given: nothing set, nothing written. -/
def newResponseWriter : ResponseWriter :=
  { header := [], code := none, body := [] }

/-- Go `w.Header().Set(key, value)`: replaces the values of `key`.  Once the
status line is written the headers of the response no longer change. -/
def ResponseWriter.Set (w : ResponseWriter) (key value : String) : ResponseWriter :=
  if w.code.isSome then w
  else { w with header := (key, value) :: w.header.filter fun p => p.1 != key }

/-- Go `w.WriteHeader(code)`: fixes the status code; a second call changes
nothing. -/
def ResponseWriter.WriteHeader (w : ResponseWriter) (code : Nat) : ResponseWriter :=
  if w.code.isSome then w else { w with code := some code }

/-- Go `w.Write(data)`: writes the status line with 200 when it is not written
yet, then appends `data` to the body. -/
def ResponseWriter.Write (w : ResponseWriter) (data : List UInt8) : ResponseWriter :=
  { w.WriteHeader 200 with body := (w.WriteHeader 200).body ++ data }

/-- Status code of the response: the code written, 200 when the handler
returned without writing. -/
def ResponseWriter.status (w : ResponseWriter) : Nat :=
  w.code.getD 200

/-- Value of a response header, `none` when the handler did not set it. -/
def ResponseWriter.Get (w : ResponseWriter) (key : String) : Option String :=
  w.header.lookup key

/-- Go `http.Error(w, error, code)`: a plain-text response with the given
status whose body is the text followed by a newline. -/
def Error (w : ResponseWriter) (error : String) (code : Nat) : ResponseWriter :=
  (((w.Set "Content-Type" "text/plain; charset=utf-8").Set
    "X-Content-Type-Options" "nosniff").WriteHeader code).Write (error ++ "\n").toUTF8.toList

/-- Go `http.NotFound(w, req)`. -/
def NotFound (w : ResponseWriter) : ResponseWriter :=
  Error w "404 page not found" 404

/-- How a call of a handler function ends: it returns `nil`, it returns an
error (its text), or it panics. -/
inductive Ret where
  | nil
  | err (e : String)
  | panic (e : String)
  deriving DecidableEq, Repr

/-- Go `type h func(w http.ResponseWriter, req *http.Request) error`, with the
store the closure captures passed in and out. -/
abbrev h : Type :=
  slots → ResponseWriter → Request → Ret × ResponseWriter × slots

/-- Go `(fn h) ServeHTTP`: runs the handler function and turns an error it
returns into `http.Error(w, err.Error(), http.StatusInternalServerError)`. -/
def ServeHTTP (fn : h) (s : slots) (w : ResponseWriter) (req : Request) :
    Ret × ResponseWriter × slots :=
  match fn s w req with
  | (.err e, w', s') => (.nil, Error w' e 500, s')
  | r => r

/-- The handler of `POST /m`.  `enc id` stands for the bytes that
`json.NewEncoder(w).Encode` writes for the struct with the field `id`; `gen` is
the outcome of the identifier generator inside `NewMsg`. -/
def postMsgHandler (enc : String → List UInt8) (gen : Except String String) : h :=
  fun s w req =>
    match req.body with
    | .error e => (.err e, w, s)
    | .ok data =>
      match NewMsg s gen (some { data := data, contentType := req.headerGet }) with
      | (.error e, s') => (.panic e, w, s')
      | (.ok id, s') => (.nil, w.Write (enc id), s')

/-- The handler of `GET /m/{id}`. -/
def getMsgHandler : h :=
  fun s w req =>
    match GetMsg s req.id with
    | (some m, s') => (.nil, (w.Set "Content-Type" m.contentType).Write m.data, s')
    | (none, s') => (.nil, NotFound w, s')

/-- The handler of `POST /m/{id}/ack`.  The bytes `[123, 125, 10]` are what
`json.NewEncoder(w).Encode(struct{}{})` writes: the empty object and a
newline. -/
def postAckHandler : h :=
  fun s w req =>
    match req.body with
    | .error e => (.err e, w, s)
    | .ok data =>
      match Ack s req.id (some { data := data, contentType := req.headerGet }) with
      | (false, s') => (.nil, NotFound w, s')
      | (true, s') => (.nil, w.Write [123, 125, 10], s')

/-- The handler of `GET /m/{id}/ack`. -/
def getAckHandler : h :=
  fun s w req =>
    match GetAck s req.id with
    | (none, s') => (.nil, NotFound w, s')
    | (some ack, s') => (.nil, (w.Set "Content-Type" ack.contentType).Write ack.data, s')

/-- Bytes of the JSON object with the one field `id`, followed by a newline,
for an identifier that needs no escaping (as a UUID string). -/
def encodeID (id : String) : List UInt8 :=
  [123, 34, 105, 100, 34, 58, 34] ++ id.toUTF8.toList ++ [34, 125, 10]

/-- The store `oneSlot` after an `Ack` of `worldMsg` on `"a"`. -/
def ackedSlot : slots :=
  (Ack oneSlot "a" (some worldMsg)).2

/-! ## Lemmas on single calls -/

theorem NewMsg_error (s : slots) (e : String) (m : Option message) :
    NewMsg s (.error e) m = (.error e, s) := rfl

theorem NewMsg_ok (s : slots) (id : String) (m : Option message) :
    NewMsg s (.ok id) m = (.ok id, { slots := s.slots.insert id { msg := m, ack := none } }) :=
  rfl

theorem NewMsg_fst_eq_ok {s : slots} {gen : Except String String} {m : Option message}
    {id : String} (h : (NewMsg s gen m).1 = .ok id) : gen = .ok id := by
  cases gen with
  | error e => simp [NewMsg] at h
  | ok id' => simpa [NewMsg] using h

theorem lookup_NewMsg_self (s : slots) (id : String) (m : Option message) :
    (NewMsg s (.ok id) m).2.slots.lookup id = some { msg := m, ack := none } := by
  simp [NewMsg, Finmap.lookup_insert]

theorem lookup_NewMsg_of_ne (s : slots) {id id' : String} (m : Option message)
    (h : id' ≠ id) : (NewMsg s (.ok id) m).2.slots.lookup id' = s.slots.lookup id' := by
  simp [NewMsg, Finmap.lookup_insert_of_ne _ h]

theorem GetMsg_snd (s : slots) (id : String) : (GetMsg s id).2 = s := by
  unfold GetMsg
  cases s.slots.lookup id <;> rfl

theorem GetAck_snd (s : slots) (id : String) : (GetAck s id).2 = s := by
  unfold GetAck
  cases s.slots.lookup id <;> rfl

theorem GetMsg_fst (s : slots) (id : String) :
    (GetMsg s id).1 = (s.slots.lookup id).bind slot.msg := by
  unfold GetMsg
  cases s.slots.lookup id <;> rfl

theorem GetAck_fst (s : slots) (id : String) :
    (GetAck s id).1 = (s.slots.lookup id).bind slot.ack := by
  unfold GetAck
  cases s.slots.lookup id <;> rfl

theorem Ack_of_lookup_none {s : slots} {id : String} (a : Option message)
    (h : s.slots.lookup id = none) : Ack s id a = (false, s) := by
  simp [Ack, h]

theorem Ack_of_lookup_some {s : slots} {id : String} {sl : slot} (a : Option message)
    (h : s.slots.lookup id = some sl) :
    Ack s id a = (true, { slots := s.slots.insert id { sl with ack := a } }) := by
  simp [Ack, h]

theorem lookup_Ack_self (s : slots) (id : String) (a : Option message) :
    (Ack s id a).2.slots.lookup id =
      (s.slots.lookup id).map fun sl => { sl with ack := a } := by
  cases h : s.slots.lookup id with
  | none => simp [Ack_of_lookup_none a h, h]
  | some sl => simp [Ack_of_lookup_some a h, Finmap.lookup_insert]

theorem lookup_Ack_of_ne (s : slots) {id id' : String} (a : Option message)
    (hne : id' ≠ id) : (Ack s id a).2.slots.lookup id' = s.slots.lookup id' := by
  cases h : s.slots.lookup id with
  | none => simp [Ack_of_lookup_none a h]
  | some sl => simp [Ack_of_lookup_some a h, Finmap.lookup_insert_of_ne _ hne]

theorem mem_iff_lookup_isSome (s : slots) (id : String) :
    id ∈ s.slots ↔ (s.slots.lookup id).isSome = true :=
  Finmap.lookup_isSome.symm

theorem keys_insert (f : Finmap (fun _ : String => slot)) (id : String) (sl : slot) :
    (f.insert id sl).keys = Insert.insert id f.keys := by
  ext x
  simp [Finmap.mem_keys, Finmap.mem_insert]

theorem len_NewMsg_of_not_mem (s : slots) {id : String} (m : Option message)
    (h : id ∉ s.slots) : len (NewMsg s (.ok id) m).2 = len s + 1 := by
  simp only [len, NewMsg, keys_insert]
  exact Finset.card_insert_of_not_mem (by simpa [Finmap.mem_keys] using h)

theorem len_NewMsg_of_mem (s : slots) {id : String} (m : Option message)
    (h : id ∈ s.slots) : len (NewMsg s (.ok id) m).2 = len s := by
  simp only [len, NewMsg, keys_insert]
  rw [Finset.insert_eq_of_mem (by simpa [Finmap.mem_keys] using h)]

theorem run_nil (s : slots) : run s [] = s := rfl

theorem run_cons (s : slots) (op : Op) (ops : List Op) :
    run s (op :: ops) = run (step s op) ops := rfl

/-! ## Lemmas on sequences of calls -/

/-- A call that is not an `Ack` on `id` keeps a slot under `id` whose `ack` is
`nil` in that state. -/
theorem step_keeps_no_ack {s : slots} {id : String} {op : Op}
    (hs : ∃ sl, s.slots.lookup id = some sl ∧ sl.ack = none)
    (hop : ∀ a, op ≠ .ack id a) :
    ∃ sl, (step s op).slots.lookup id = some sl ∧ sl.ack = none := by
  cases op with
  | newMsg gen m =>
    cases gen with
    | error e => simpa [step, NewMsg_error] using hs
    | ok id' =>
      by_cases h : id = id'
      · subst h
        exact ⟨_, lookup_NewMsg_self s id m, rfl⟩
      · simpa [step, lookup_NewMsg_of_ne s m h] using hs
  | getMsg id' => simpa [step, GetMsg_snd] using hs
  | ack id' a =>
    have h : id ≠ id' := fun e => hop a (by rw [e])
    simpa [step, lookup_Ack_of_ne s a h] using hs
  | getAck id' => simpa [step, GetAck_snd] using hs

theorem run_keeps_no_ack (ops : List Op) {s : slots} {id : String}
    (hs : ∃ sl, s.slots.lookup id = some sl ∧ sl.ack = none)
    (hops : ∀ op ∈ ops, ∀ a, op ≠ .ack id a) :
    ∃ sl, (run s ops).slots.lookup id = some sl ∧ sl.ack = none := by
  induction ops generalizing s with
  | nil => simpa [run_nil] using hs
  | cons op ops ih =>
    rw [run_cons]
    exact ih (step_keeps_no_ack hs (hops op (List.mem_cons_self _ _)))
      (fun o ho => hops o (List.mem_cons_of_mem _ ho))

/-- A call keeps every slot that exists. -/
theorem step_mem {s : slots} {id : String} (op : Op) (h : id ∈ s.slots) :
    id ∈ (step s op).slots := by
  rw [mem_iff_lookup_isSome] at h ⊢
  cases op with
  | newMsg gen m =>
    cases gen with
    | error e => simpa [step, NewMsg_error] using h
    | ok id' =>
      by_cases hid : id = id'
      · subst hid
        simp [step, lookup_NewMsg_self]
      · simpa [step, lookup_NewMsg_of_ne s m hid] using h
  | getMsg id' => simpa [step, GetMsg_snd] using h
  | ack id' a =>
    by_cases hid : id = id'
    · subst hid
      simpa [step, lookup_Ack_self] using h
    · simpa [step, lookup_Ack_of_ne s a hid] using h
  | getAck id' => simpa [step, GetAck_snd] using h

theorem run_mem (ops : List Op) {s : slots} {id : String} (h : id ∈ s.slots) :
    id ∈ (run s ops).slots := by
  induction ops generalizing s with
  | nil => simpa [run_nil] using h
  | cons op ops ih =>
    rw [run_cons]
    exact ih (step_mem op h)

/-- A call that is not a `NewMsg` drawing `id` leaves the `msg` under `id` as it
was. -/
theorem step_GetMsg {s : slots} {id : String} {op : Op}
    (hop : ∀ m, op ≠ .newMsg (.ok id) m) :
    (GetMsg (step s op) id).1 = (GetMsg s id).1 := by
  simp only [GetMsg_fst]
  cases op with
  | newMsg gen m =>
    cases gen with
    | error e => simp [step, NewMsg_error]
    | ok id' =>
      have h : id ≠ id' := fun e => hop m (by rw [e])
      simp [step, lookup_NewMsg_of_ne s m h]
  | getMsg id' => simp [step, GetMsg_snd]
  | ack id' a =>
    by_cases hid : id = id'
    · subst hid
      simp only [step, lookup_Ack_self]
      cases s.slots.lookup id <;> rfl
    · simp [step, lookup_Ack_of_ne s a hid]
  | getAck id' => simp [step, GetAck_snd]

theorem run_GetMsg (ops : List Op) {s : slots} {id : String}
    (hops : ∀ op ∈ ops, ∀ m, op ≠ .newMsg (.ok id) m) :
    (GetMsg (run s ops) id).1 = (GetMsg s id).1 := by
  induction ops generalizing s with
  | nil => rfl
  | cons op ops ih =>
    rw [run_cons, ih (fun o ho => hops o (List.mem_cons_of_mem _ ho))]
    exact step_GetMsg (hops op (List.mem_cons_self _ _))

/-- An identifier with no slot that no `NewMsg` of the sequence returns has no
slot afterwards. -/
theorem run_not_mem (ops : List Op) {s : slots} {id : String} (hs : id ∉ s.slots)
    (hr : id ∉ returned s ops) : id ∉ (run s ops).slots := by
  induction ops generalizing s with
  | nil => simpa [run_nil] using hs
  | cons op ops ih =>
    rw [run_cons]
    cases op with
    | newMsg gen m =>
      cases gen with
      | error e =>
        simp only [returned, NewMsg_error] at hr
        simpa [step, NewMsg_error] using ih hs hr
      | ok id' =>
        simp only [returned, NewMsg_ok, List.mem_cons, not_or] at hr
        refine ih ?_ (by simpa [step, NewMsg_ok] using hr.2)
        simp only [step, NewMsg_ok, Finmap.mem_insert, not_or]
        exact ⟨hr.1, hs⟩
    | getMsg id' =>
      simp only [returned, step, GetMsg_snd] at hr ⊢
      exact ih hs hr
    | ack id' a =>
      simp only [returned] at hr
      refine ih ?_ hr
      rw [← Finmap.lookup_eq_none] at hs ⊢
      by_cases hid : id = id'
      · subst hid
        simp [step, lookup_Ack_self, hs]
      · simpa [step, lookup_Ack_of_ne s a hid] using hs
    | getAck id' =>
      simp only [returned, step, GetAck_snd] at hr ⊢
      exact ih hs hr

theorem run_replicate_getMsg (s : slots) (id : String) (n : Nat) :
    run s (List.replicate n (Op.getMsg id)) = s := by
  induction n with
  | zero => rfl
  | succ n ih => rw [List.replicate_succ, run_cons, step, GetMsg_snd, ih]

/-! ## The store contract -/

/-- C1 (round trip): when `NewMsg` of a message `m` returns the identifier
`id`, `GetMsg id` called right afterwards returns a present message equal to
`m`, bytes and content type. -/
theorem NewMsg_GetMsg_roundtrip (s : slots) (gen : Except String String) (m : message)
    (id : String) (h : (NewMsg s gen (some m)).1 = .ok id) :
    (GetMsg (NewMsg s gen (some m)).2 id).1 = some m := by
  have hg := NewMsg_fst_eq_ok h
  subst hg
  rw [GetMsg_fst, lookup_NewMsg_self]
  rfl

theorem NewMsg_GetMsg_roundtrip_witness :
    (NewMsg oneSlot (.ok "b") (some emptyMsg)).1 = .ok "b" ∧
      (GetMsg (NewMsg oneSlot (.ok "b") (some emptyMsg)).2 "b").1 = some emptyMsg :=
  ⟨rfl, NewMsg_GetMsg_roundtrip oneSlot (.ok "b") emptyMsg "b" rfl⟩

/-- C2 (ack round trip): when a slot exists under `id`, `Ack id a` returns
`true` and `GetAck id` called right afterwards returns a present message equal
to `a`. -/
theorem Ack_GetAck_roundtrip (s : slots) (id : String) (a : message) (h : id ∈ s.slots) :
    (Ack s id (some a)).1 = true ∧ (GetAck (Ack s id (some a)).2 id).1 = some a := by
  obtain ⟨sl, hsl⟩ := Finmap.mem_iff.mp h
  constructor
  · rw [Ack_of_lookup_some _ hsl]
  · rw [GetAck_fst, lookup_Ack_self, hsl]
    rfl

theorem Ack_GetAck_roundtrip_witness :
    "a" ∈ oneSlot.slots ∧ (Ack oneSlot "a" (some worldMsg)).1 = true ∧
      (GetAck (Ack oneSlot "a" (some worldMsg)).2 "a").1 = some worldMsg :=
  ⟨by decide, Ack_GetAck_roundtrip oneSlot "a" worldMsg (by decide)⟩

/-- C3 (ack overwrite, last write wins): when a slot exists under `id`,
`Ack id a1` followed by `Ack id a2` both return `true`, and `GetAck id` then
returns `a2`, whatever `a1` was. -/
theorem Ack_Ack_GetAck (s : slots) (id : String) (a1 a2 : message) (h : id ∈ s.slots) :
    (Ack s id (some a1)).1 = true ∧
      (Ack (Ack s id (some a1)).2 id (some a2)).1 = true ∧
      (GetAck (Ack (Ack s id (some a1)).2 id (some a2)).2 id).1 = some a2 := by
  have h1 : id ∈ (Ack s id (some a1)).2.slots := step_mem (.ack id (some a1)) h
  exact ⟨(Ack_GetAck_roundtrip s id a1 h).1, Ack_GetAck_roundtrip _ id a2 h1⟩

theorem Ack_Ack_GetAck_witness :
    "a" ∈ oneSlot.slots ∧ (Ack oneSlot "a" (some worldMsg)).1 = true ∧
      (Ack (Ack oneSlot "a" (some worldMsg)).2 "a" (some emptyMsg)).1 = true ∧
      (GetAck (Ack (Ack oneSlot "a" (some worldMsg)).2 "a" (some emptyMsg)).2 "a").1 =
        some emptyMsg :=
  ⟨by decide, Ack_Ack_GetAck oneSlot "a" worldMsg emptyMsg (by decide)⟩

/-- C4 (no ack yet): when `NewMsg` of `m` returns `id`, `GetAck id` is absent
after every further sequence of calls (the empty one included) that has no
`Ack` on `id`. -/
theorem GetAck_none_before_Ack (s : slots) (gen : Except String String) (m : message)
    (id : String) (ops : List Op) (h : (NewMsg s gen (some m)).1 = .ok id)
    (hops : ∀ op ∈ ops, ∀ a, op ≠ .ack id a) :
    (GetAck (run (NewMsg s gen (some m)).2 ops) id).1 = none := by
  have hg := NewMsg_fst_eq_ok h
  subst hg
  obtain ⟨sl, hsl, hack⟩ :=
    run_keeps_no_ack ops ⟨_, lookup_NewMsg_self s id (some m), rfl⟩ hops
  rw [GetAck_fst, hsl]
  exact hack

theorem GetAck_none_before_Ack_witness :
    (NewMsg oneSlot (.ok "b") (some worldMsg)).1 = .ok "b" ∧
      (∀ op ∈ [Op.ack "a" (some emptyMsg), Op.getMsg "b", Op.newMsg (.ok "b") none],
        ∀ a, op ≠ .ack "b" a) ∧
      (GetAck (run (NewMsg oneSlot (.ok "b") (some worldMsg)).2
        [Op.ack "a" (some emptyMsg), Op.getMsg "b", Op.newMsg (.ok "b") none]) "b").1 = none :=
  ⟨rfl, by simp,
    GetAck_none_before_Ack oneSlot (.ok "b") worldMsg "b" _ rfl (by simp)⟩

/-- C5 (unknown id): in the store reached from the empty store by any
sequence of calls, an identifier that no `NewMsg` of the sequence returned has
`GetMsg` absent, `GetAck` absent, and `Ack` returning `false` for every
message. -/
theorem unknown_id (ops : List Op) (id : String) (h : id ∉ returned newSlots ops) :
    (GetMsg (run newSlots ops) id).1 = none ∧
      (GetAck (run newSlots ops) id).1 = none ∧
      ∀ a, (Ack (run newSlots ops) id a).1 = false := by
  have hmem : id ∉ (run newSlots ops).slots :=
    run_not_mem ops Finmap.not_mem_empty h
  have hl := Finmap.lookup_eq_none.mpr hmem
  refine ⟨?_, ?_, fun a => ?_⟩
  · rw [GetMsg_fst, hl]; rfl
  · rw [GetAck_fst, hl]; rfl
  · rw [Ack_of_lookup_none a hl]

theorem unknown_id_witness :
    "c" ∉ returned newSlots [Op.newMsg (.ok "a") (some helloMsg), Op.ack "c" (some worldMsg),
        Op.newMsg (.ok "b") (some worldMsg), Op.ack "a" (some emptyMsg)] ∧
      (GetMsg (run newSlots [Op.newMsg (.ok "a") (some helloMsg), Op.ack "c" (some worldMsg),
        Op.newMsg (.ok "b") (some worldMsg), Op.ack "a" (some emptyMsg)]) "c").1 = none :=
  ⟨by decide, (unknown_id _ "c" (by decide)).1⟩

/-- C6 (a failed acknowledgment changes nothing): when no slot exists under
`id`, `Ack id a` returns `false` and leaves the store as it was; no slot is
created under `id`. -/
theorem Ack_unknown_unchanged (s : slots) (id : String) (a : Option message)
    (h : id ∉ s.slots) :
    (Ack s id a).1 = false ∧ (Ack s id a).2 = s ∧ id ∉ (Ack s id a).2.slots := by
  have hl := Finmap.lookup_eq_none.mpr h
  rw [Ack_of_lookup_none a hl]
  exact ⟨rfl, rfl, h⟩

theorem Ack_unknown_unchanged_witness :
    "b" ∉ oneSlot.slots ∧ (Ack oneSlot "b" (some worldMsg)).1 = false ∧
      (Ack oneSlot "b" (some worldMsg)).2 = oneSlot ∧
      "b" ∉ (Ack oneSlot "b" (some worldMsg)).2.slots :=
  ⟨by decide, Ack_unknown_unchanged oneSlot "b" (some worldMsg) (by decide)⟩

/-- C7 fails as stated: on the store holding a slot under `"a"`, a `NewMsg`
that draws `"a"` again returns `"a"` and leaves one entry, not two; and a
`NewMsg` whose generator fails returns no identifier and leaves the store as
it was. -/
theorem NewMsg_len_counterexample :
    (NewMsg oneSlot (.ok "a") (some worldMsg)).1 = .ok "a" ∧
      len oneSlot = 1 ∧
      len (NewMsg oneSlot (.ok "a") (some worldMsg)).2 = 1 ∧
      len (NewMsg oneSlot (.ok "a") (some worldMsg)).2 ≠ len oneSlot + 1 ∧
      NewMsg oneSlot (.error "EOF") (some worldMsg) = (.error "EOF", oneSlot) :=
  ⟨rfl, by decide, by decide, by decide, rfl⟩

/-- C7 (create postcondition, amended): when the generator yields an identifier
`id` that has no slot yet, `NewMsg` of `m` returns `id`, the store afterwards
holds exactly one more entry than before, and the slot under `id` has
original `m` and no ack. -/
theorem NewMsg_post (s : slots) (m : message) (id : String) (h : id ∉ s.slots) :
    (NewMsg s (.ok id) (some m)).1 = .ok id ∧
      len (NewMsg s (.ok id) (some m)).2 = len s + 1 ∧
      (NewMsg s (.ok id) (some m)).2.slots.lookup id = some { msg := some m, ack := none } :=
  ⟨rfl, len_NewMsg_of_not_mem s (some m) h, lookup_NewMsg_self s id (some m)⟩

theorem NewMsg_post_witness :
    "b" ∉ oneSlot.slots ∧ (NewMsg oneSlot (.ok "b") (some worldMsg)).1 = .ok "b" ∧
      len (NewMsg oneSlot (.ok "b") (some worldMsg)).2 = len oneSlot + 1 ∧
      (NewMsg oneSlot (.ok "b") (some worldMsg)).2.slots.lookup "b" =
        some { msg := some worldMsg, ack := none } :=
  ⟨by decide, NewMsg_post oneSlot worldMsg "b" (by decide)⟩

/-- C8 fails as stated: on the store holding `helloMsg` under `"a"`, a `NewMsg`
of `worldMsg` that draws `"a"` again makes `GetMsg "a"` return `worldMsg`. -/
theorem GetMsg_after_NewMsg_counterexample :
    "a" ∈ oneSlot.slots ∧
      (GetMsg oneSlot "a").1 = some helloMsg ∧
      (GetMsg (step oneSlot (.newMsg (.ok "a") (some worldMsg))) "a").1 = some worldMsg ∧
      (GetMsg (step oneSlot (.newMsg (.ok "a") (some worldMsg))) "a").1 ≠
        (GetMsg oneSlot "a").1 :=
  ⟨by decide, by decide, by decide, by decide⟩

/-- C8 (the original is immutable, amended): for an identifier `id` with a
slot, `GetMsg id` returns the same message after a call as before it, for
every call other than a `NewMsg` that draws `id` itself; hence also after
every sequence of such calls. -/
theorem GetMsg_unchanged (s : slots) (id : String) (op : Op) (ops : List Op)
    (h : id ∈ s.slots) (hop : ∀ m, op ≠ .newMsg (.ok id) m)
    (hops : ∀ o ∈ ops, ∀ m, o ≠ .newMsg (.ok id) m) :
    (GetMsg (step s op) id).1 = (GetMsg s id).1 ∧
      (GetMsg (run s ops) id).1 = (GetMsg s id).1 ∧
      id ∈ (run s ops).slots :=
  ⟨step_GetMsg hop, run_GetMsg ops hops, run_mem ops h⟩

theorem GetMsg_unchanged_witness :
    "a" ∈ oneSlot.slots ∧
      (GetMsg (step oneSlot (.ack "a" (some worldMsg))) "a").1 = (GetMsg oneSlot "a").1 ∧
      (GetMsg (run oneSlot [Op.newMsg (.ok "b") (some worldMsg), Op.ack "a" none,
        Op.newMsg (.error "EOF") none, Op.getAck "a"]) "a").1 = (GetMsg oneSlot "a").1 ∧
      "a" ∈ (run oneSlot [Op.newMsg (.ok "b") (some worldMsg), Op.ack "a" none,
        Op.newMsg (.error "EOF") none, Op.getAck "a"]).slots :=
  ⟨by decide,
    GetMsg_unchanged oneSlot "a" (.ack "a" (some worldMsg)) _ (by decide) (by simp) (by simp)⟩

/-- C9 (slots are never removed): an identifier that has a slot before a call
still has one after it, whatever the call; hence also after every sequence of
calls. -/
theorem slot_never_removed (s : slots) (id : String) (op : Op) (ops : List Op)
    (h : id ∈ s.slots) : id ∈ (step s op).slots ∧ id ∈ (run s ops).slots :=
  ⟨step_mem op h, run_mem ops h⟩

theorem slot_never_removed_witness :
    "a" ∈ oneSlot.slots ∧
      "a" ∈ (step oneSlot (.newMsg (.ok "a") (some worldMsg))).slots ∧
      "a" ∈ (run oneSlot [Op.ack "a" none, Op.newMsg (.ok "b") none, Op.getMsg "c"]).slots :=
  ⟨by decide, slot_never_removed oneSlot "a" _ _ (by decide)⟩

/-- C10 (reads have no effect): `GetMsg id` and `GetAck id` leave the store as
it was, for every identifier; so after `GetMsg id` has been called any number
of times in a row the store is still the same and `GetMsg id` returns the same
result. -/
theorem reads_leave_store (s : slots) (id : String) (n : Nat) :
    (GetMsg s id).2 = s ∧ (GetAck s id).2 = s ∧
      run s (List.replicate n (Op.getMsg id)) = s ∧
      (GetMsg (run s (List.replicate n (Op.getMsg id))) id).1 = (GetMsg s id).1 := by
  refine ⟨GetMsg_snd s id, GetAck_snd s id, run_replicate_getMsg s id n, ?_⟩
  rw [run_replicate_getMsg]

/-! ## Lemmas on creations and on the response writer -/

theorem returned_creates (l : List (String × message)) (s : slots) :
    returned s (creates l) = l.map Prod.fst := by
  induction l generalizing s with
  | nil => rfl
  | cons p t ih => simp [creates, returned, NewMsg_ok] at ih ⊢; exact ih _

theorem creates_ne_newMsg {t : List (String × message)} {id : String}
    (hid : id ∉ t.map Prod.fst) :
    ∀ op ∈ creates t, ∀ m, op ≠ .newMsg (.ok id) m := by
  intro op hop m heq
  simp only [creates, List.mem_map] at hop
  obtain ⟨r, hr, rfl⟩ := hop
  injection heq with hgen _
  injection hgen with h1
  exact hid (List.mem_map.mpr ⟨r, hr, h1⟩)

theorem GetMsg_run_creates (l : List (String × message)) (s : slots)
    (hnd : (l.map Prod.fst).Nodup) (p : String × message) (hp : p ∈ l) :
    (GetMsg (run s (creates l)) p.1).1 = some p.2 := by
  induction l generalizing s with
  | nil => simp at hp
  | cons q t ih =>
    rw [List.map_cons, List.nodup_cons] at hnd
    have hrun : run s (creates (q :: t)) =
        run (NewMsg s (.ok q.1) (some q.2)).2 (creates t) := rfl
    rw [hrun]
    rcases List.mem_cons.mp hp with hpq | hpt
    · subst hpq
      rw [run_GetMsg (creates t) (creates_ne_newMsg hnd.1), GetMsg_fst, lookup_NewMsg_self]
      rfl
    · exact ih _ hnd.2 hpt

theorem status_Error (e : String) (code : Nat) :
    (Error newResponseWriter e code).status = code := rfl

theorem body_Error (e : String) (code : Nat) :
    (Error newResponseWriter e code).body = (e ++ "\n").toUTF8.toList := rfl

theorem status_NotFound : (NotFound newResponseWriter).status = 404 := rfl

theorem status_Set_Write (key value : String) (data : List UInt8) :
    ((newResponseWriter.Set key value).Write data).status = 200 := rfl

theorem body_Set_Write (key value : String) (data : List UInt8) :
    ((newResponseWriter.Set key value).Write data).body = data := rfl

theorem Get_Set_Write (key value : String) (data : List UInt8) :
    ((newResponseWriter.Set key value).Write data).Get key = some value := by
  simp [ResponseWriter.Get, ResponseWriter.Write, ResponseWriter.WriteHeader,
    ResponseWriter.Set, newResponseWriter]

theorem ServeHTTP_getMsgHandler (s : slots) (req : Request) :
    ServeHTTP getMsgHandler s newResponseWriter req =
      match (GetMsg s req.id).1 with
      | some m =>
        (.nil, (newResponseWriter.Set "Content-Type" m.contentType).Write m.data, s)
      | none => (.nil, NotFound newResponseWriter, s) := by
  have hs := GetMsg_snd s req.id
  unfold ServeHTTP getMsgHandler
  rcases hg : GetMsg s req.id with ⟨r, s'⟩
  rw [hg] at hs
  simp only at hs
  subst hs
  cases r <;> rfl

theorem ServeHTTP_getAckHandler (s : slots) (req : Request) :
    ServeHTTP getAckHandler s newResponseWriter req =
      match (GetAck s req.id).1 with
      | some ack =>
        (.nil, (newResponseWriter.Set "Content-Type" ack.contentType).Write ack.data, s)
      | none => (.nil, NotFound newResponseWriter, s) := by
  have hs := GetAck_snd s req.id
  unfold ServeHTTP getAckHandler
  rcases hg : GetAck s req.id with ⟨r, s'⟩
  rw [hg] at hs
  simp only at hs
  subst hs
  cases r <;> rfl

/-! ## The store contract, continued -/

/-- C11 (what `GetAck` returns): `GetAck id` returns a present message `a`
exactly when a slot exists under `id` whose ack is `a`; it returns absent
exactly when `id` has no slot or its slot has no ack. -/
theorem GetAck_characterised (s : slots) (id : String) :
    (∀ a, (GetAck s id).1 = some a ↔ ∃ sl, s.slots.lookup id = some sl ∧ sl.ack = some a) ∧
      ((GetAck s id).1 = none ↔
        id ∉ s.slots ∨ ∃ sl, s.slots.lookup id = some sl ∧ sl.ack = none) := by
  rw [GetAck_fst, ← Finmap.lookup_eq_none]
  cases hl : s.slots.lookup id with
  | none => simp
  | some sl => simp

theorem GetAck_characterised_witness :
    ((GetAck ackedSlot "a").1 = some worldMsg ↔
        ∃ sl, ackedSlot.slots.lookup "a" = some sl ∧ sl.ack = some worldMsg) ∧
      (GetAck ackedSlot "a").1 = some worldMsg ∧
      (GetAck oneSlot "a").1 = none ∧ (GetAck oneSlot "b").1 = none :=
  ⟨(GetAck_characterised ackedSlot "a").1 worldMsg, by decide, by decide, by decide⟩

/-- C12 fails as stated: two `NewMsg` calls on the empty store whose generator
yields `"a"` both times return the same identifier, and `GetMsg "a"` then
returns the second message, not the first. -/
theorem creates_collide_counterexample :
    returned newSlots (creates [("a", helloMsg), ("a", worldMsg)]) = ["a", "a"] ∧
      ¬ (returned newSlots (creates [("a", helloMsg), ("a", worldMsg)])).Nodup ∧
      (GetMsg (run newSlots (creates [("a", helloMsg), ("a", worldMsg)])) "a").1 =
        some worldMsg ∧
      (GetMsg (run newSlots (creates [("a", helloMsg), ("a", worldMsg)])) "a").1 ≠
        some helloMsg :=
  ⟨by decide, by decide, by decide, by decide⟩

/-- C12 (no cross-contamination among creates, amended): when the generator
yields pairwise distinct identifiers for the messages of a list, the `NewMsg`
calls executed on the empty store in any order return exactly those
identifiers, pairwise distinct, and afterwards `GetMsg` of each identifier
returns the message created with it. -/
theorem creates_retrievable (l l' : List (String × message)) (hperm : l'.Perm l)
    (hnd : (l.map Prod.fst).Nodup) :
    returned newSlots (creates l') = l'.map Prod.fst ∧
      (returned newSlots (creates l')).Nodup ∧
      ∀ p ∈ l, (GetMsg (run newSlots (creates l')) p.1).1 = some p.2 := by
  have hnd' : (l'.map Prod.fst).Nodup := (hperm.map Prod.fst).nodup_iff.mpr hnd
  refine ⟨returned_creates l' _, ?_, fun p hp => ?_⟩
  · rw [returned_creates]
    exact hnd'
  · exact GetMsg_run_creates l' _ hnd' p (hperm.mem_iff.mpr hp)

theorem creates_retrievable_witness :
    [("b", worldMsg), ("a", helloMsg), ("c", emptyMsg)].Perm
        [("a", helloMsg), ("b", worldMsg), ("c", emptyMsg)] ∧
      ([("a", helloMsg), ("b", worldMsg), ("c", emptyMsg)].map Prod.fst).Nodup ∧
      returned newSlots (creates [("b", worldMsg), ("a", helloMsg), ("c", emptyMsg)]) =
        [("b", worldMsg), ("a", helloMsg), ("c", emptyMsg)].map Prod.fst ∧
      (returned newSlots (creates [("b", worldMsg), ("a", helloMsg), ("c", emptyMsg)])).Nodup ∧
      ∀ p ∈ [("a", helloMsg), ("b", worldMsg), ("c", emptyMsg)],
        (GetMsg (run newSlots (creates [("b", worldMsg), ("a", helloMsg), ("c", emptyMsg)]))
          p.1).1 = some p.2 :=
  ⟨by decide, by decide,
    creates_retrievable [("a", helloMsg), ("b", worldMsg), ("c", emptyMsg)]
      [("b", worldMsg), ("a", helloMsg), ("c", emptyMsg)] (by decide) (by decide)⟩

/-- C13 (fetch-message handler): the handler of `GET /m/{id}` returns `nil`
and leaves the store as it was; its response has status 404 exactly when
`GetMsg id` is absent; when `GetMsg id` is a message, the status is 200, the
body is the stored bytes and `Content-Type` is the stored content type.  For
a message created by `POST /m` from a request with no `Content-Type` header
the stored and echoed content type is the empty string. -/
theorem getMsgHandler_response (s : slots) (req : Request) (enc : String → List UInt8)
    (id pid : String) (data : List UInt8) (b : Except String (List UInt8))
    (c : Option String) :
    (ServeHTTP getMsgHandler s newResponseWriter req).1 = .nil ∧
      (ServeHTTP getMsgHandler s newResponseWriter req).2.2 = s ∧
      ((ServeHTTP getMsgHandler s newResponseWriter req).2.1.status = 404 ↔
        (GetMsg s req.id).1 = none) ∧
      (∀ m, (GetMsg s req.id).1 = some m →
        (ServeHTTP getMsgHandler s newResponseWriter req).2.1.status = 200 ∧
        (ServeHTTP getMsgHandler s newResponseWriter req).2.1.body = m.data ∧
        (ServeHTTP getMsgHandler s newResponseWriter req).2.1.Get "Content-Type" =
          some m.contentType) ∧
      (ServeHTTP getMsgHandler
        (ServeHTTP (postMsgHandler enc (.ok id)) s newResponseWriter
          { id := pid, body := .ok data, contentType := none }).2.2
        newResponseWriter { id := id, body := b, contentType := c }).2.1 =
        (newResponseWriter.Set "Content-Type" "").Write data := by
  refine ⟨?_, ?_, ?_, ?_, ?_⟩
  · rw [ServeHTTP_getMsgHandler]
    cases (GetMsg s req.id).1 <;> rfl
  · rw [ServeHTTP_getMsgHandler]
    cases (GetMsg s req.id).1 <;> rfl
  · rw [ServeHTTP_getMsgHandler]
    cases (GetMsg s req.id).1 with
    | none => simp [status_NotFound]
    | some m => simp [status_Set_Write]
  · intro m hm
    rw [ServeHTTP_getMsgHandler, hm]
    exact ⟨status_Set_Write _ _ _, body_Set_Write _ _ _, Get_Set_Write _ _ _⟩
  · have hpost : (ServeHTTP (postMsgHandler enc (.ok id)) s newResponseWriter
        { id := pid, body := .ok data, contentType := none }).2.2 =
        (NewMsg s (.ok id) (some { data := data, contentType := "" })).2 := rfl
    rw [hpost, ServeHTTP_getMsgHandler, GetMsg_fst, lookup_NewMsg_self]
    rfl

theorem getMsgHandler_response_witness :
    (ServeHTTP getMsgHandler oneSlot newResponseWriter
        { id := "a", body := .ok [], contentType := none }).2.1.status = 200 ∧
      (ServeHTTP getMsgHandler oneSlot newResponseWriter
        { id := "a", body := .ok [], contentType := none }).2.1.body = helloMsg.data ∧
      (ServeHTTP getMsgHandler oneSlot newResponseWriter
        { id := "a", body := .ok [], contentType := none }).2.1.Get "Content-Type" =
        some "text/plain" :=
  (getMsgHandler_response oneSlot { id := "a", body := .ok [], contentType := none }
    encodeID "b" "" [] (.ok []) none).2.2.2.1 helloMsg (by decide)

/-- C14 (request-body read failure): when reading the request body fails
with the error `e`, the handlers of `POST /m` and of `POST /m/{id}/ack` both
answer through `http.Error` with status 500 and a body that is the text of `e`
followed by a newline, and the store is left as it was. -/
theorem read_failure_response (enc : String → List UInt8) (gen : Except String String)
    (s : slots) (req : Request) (e : String) (hb : req.body = .error e) :
    ServeHTTP (postMsgHandler enc gen) s newResponseWriter req =
        (.nil, Error newResponseWriter e 500, s) ∧
      ServeHTTP postAckHandler s newResponseWriter req =
        (.nil, Error newResponseWriter e 500, s) ∧
      (Error newResponseWriter e 500).status = 500 ∧
      (Error newResponseWriter e 500).body = (e ++ "\n").toUTF8.toList := by
  refine ⟨?_, ?_, status_Error e 500, body_Error e 500⟩
  · simp [ServeHTTP, postMsgHandler, hb]
  · simp [ServeHTTP, postAckHandler, hb]

theorem read_failure_response_witness :
    ServeHTTP (postMsgHandler encodeID (.ok "b")) oneSlot newResponseWriter
        { id := "", body := .error "unexpected EOF", contentType := some "text/plain" } =
        (.nil, Error newResponseWriter "unexpected EOF" 500, oneSlot) ∧
      ServeHTTP postAckHandler oneSlot newResponseWriter
        { id := "", body := .error "unexpected EOF", contentType := some "text/plain" } =
        (.nil, Error newResponseWriter "unexpected EOF" 500, oneSlot) ∧
      (Error newResponseWriter "unexpected EOF" 500).status = 500 ∧
      (Error newResponseWriter "unexpected EOF" 500).body =
        ("unexpected EOF" ++ "\n").toUTF8.toList :=
  read_failure_response encodeID (.ok "b") oneSlot
    { id := "", body := .error "unexpected EOF", contentType := some "text/plain" }
    "unexpected EOF" rfl

/-- C15 (identifier independence): what `NewMsg` returns is the outcome of the
identifier generator and nothing else: with the same outcome, two runs on any
two stores with any two messages return the same identifier. -/
theorem NewMsg_id_independent (s1 s2 : slots) (gen : Except String String)
    (m1 m2 : Option message) :
    (NewMsg s1 gen m1).1 = (NewMsg s2 gen m2).1 ∧ (NewMsg s1 gen m1).1 = gen := by
  cases gen <;> exact ⟨rfl, rfl⟩

/-- C17 (ack frame): `Ack id a`, whether it succeeds or not, leaves the slot,
`GetMsg` and `GetAck` of every other identifier as they were; it leaves
`GetMsg id` as it was, and when it succeeds the slot under `id` differs from
the one before in its `ack` only, which is `a`. -/
theorem Ack_frame (s : slots) (id id' : String) (a : Option message) (hne : id' ≠ id) :
    (Ack s id a).2.slots.lookup id' = s.slots.lookup id' ∧
      (GetMsg (Ack s id a).2 id').1 = (GetMsg s id').1 ∧
      (GetAck (Ack s id a).2 id').1 = (GetAck s id').1 ∧
      (GetMsg (Ack s id a).2 id).1 = (GetMsg s id).1 ∧
      (Ack s id a).2.slots.lookup id =
        (s.slots.lookup id).map fun sl => { msg := sl.msg, ack := a } := by
  have hl := lookup_Ack_of_ne s a hne
  refine ⟨hl, ?_, ?_, ?_, lookup_Ack_self s id a⟩
  · rw [GetMsg_fst, GetMsg_fst, hl]
  · rw [GetAck_fst, GetAck_fst, hl]
  · exact @step_GetMsg s id (.ack id a) (fun m hm => by cases hm)

theorem Ack_frame_witness :
    "b" ≠ "a" ∧
      (Ack twoSlots "a" (some emptyMsg)).2.slots.lookup "b" = twoSlots.slots.lookup "b" ∧
      (GetMsg (Ack twoSlots "a" (some emptyMsg)).2 "b").1 = (GetMsg twoSlots "b").1 ∧
      (GetAck (Ack twoSlots "a" (some emptyMsg)).2 "b").1 = (GetAck twoSlots "b").1 ∧
      (GetMsg (Ack twoSlots "a" (some emptyMsg)).2 "a").1 = (GetMsg twoSlots "a").1 ∧
      (Ack twoSlots "a" (some emptyMsg)).2.slots.lookup "a" =
        (twoSlots.slots.lookup "a").map fun sl => { msg := sl.msg, ack := some emptyMsg } :=
  ⟨by decide, Ack_frame twoSlots "a" "b" (some emptyMsg) (by decide)⟩

/-- C18 (an empty acknowledgment is still an acknowledgment): when a slot
exists under `id`, `Ack` of the message with no bytes and an empty content
type returns `true`; `GetAck id` then returns that message, present and not
absent, and the handler of `GET /m/{id}/ack` answers with status 200 and an
empty body, not with 404. -/
theorem empty_ack_present (s : slots) (req : Request) (hmem : req.id ∈ s.slots) :
    (Ack s req.id (some { data := [], contentType := "" })).1 = true ∧
      (GetAck (Ack s req.id (some { data := [], contentType := "" })).2 req.id).1 =
        some { data := [], contentType := "" } ∧
      (GetAck (Ack s req.id (some { data := [], contentType := "" })).2 req.id).1 ≠ none ∧
      (ServeHTTP getAckHandler (Ack s req.id (some { data := [], contentType := "" })).2
        newResponseWriter req).2.1.status = 200 ∧
      (ServeHTTP getAckHandler (Ack s req.id (some { data := [], contentType := "" })).2
        newResponseWriter req).2.1.body = [] ∧
      (ServeHTTP getAckHandler (Ack s req.id (some { data := [], contentType := "" })).2
        newResponseWriter req).2.1.status ≠ 404 := by
  obtain ⟨htrue, hget⟩ := Ack_GetAck_roundtrip s req.id { data := [], contentType := "" } hmem
  refine ⟨htrue, hget, ?_, ?_, ?_, ?_⟩
  · rw [hget]; simp
  · rw [ServeHTTP_getAckHandler, hget]; rfl
  · rw [ServeHTTP_getAckHandler, hget]; rfl
  · rw [ServeHTTP_getAckHandler, hget]
    show (200 : Nat) ≠ 404
    decide

theorem empty_ack_present_witness :
    "a" ∈ oneSlot.slots ∧
      (GetAck oneSlot "a").1 = none ∧
      (ServeHTTP getAckHandler oneSlot newResponseWriter
        { id := "a", body := .ok [], contentType := none }).2.1.status = 404 ∧
      (GetAck (Ack oneSlot "a" (some { data := [], contentType := "" })).2 "a").1 =
        some { data := [], contentType := "" } ∧
      (ServeHTTP getAckHandler (Ack oneSlot "a" (some { data := [], contentType := "" })).2
        newResponseWriter { id := "a", body := .ok [], contentType := none }).2.1.status =
        200 :=
  ⟨by decide, by decide, by decide,
    (empty_ack_present oneSlot { id := "a", body := .ok [], contentType := none }
      (by decide)).2.1,
    (empty_ack_present oneSlot { id := "a", body := .ok [], contentType := none }
      (by decide)).2.2.2.1⟩

/-- C19 (create on an identifier already in use replaces the slot): when the
identifier `id` that `NewMsg` of `m` draws already has a slot, the call returns
`id`, the number of entries stays the same, `GetMsg id` returns `m`, `GetAck id`
returns absent whatever ack was set before, and the slot of every other
identifier is as it was. -/
theorem NewMsg_replaces (s : slots) (m : message) (id : String) (hmem : id ∈ s.slots) :
    (NewMsg s (.ok id) (some m)).1 = .ok id ∧
      len (NewMsg s (.ok id) (some m)).2 = len s ∧
      (GetMsg (NewMsg s (.ok id) (some m)).2 id).1 = some m ∧
      (GetAck (NewMsg s (.ok id) (some m)).2 id).1 = none ∧
      ∀ id', id' ≠ id →
        (NewMsg s (.ok id) (some m)).2.slots.lookup id' = s.slots.lookup id' := by
  refine ⟨rfl, len_NewMsg_of_mem s (some m) hmem, ?_, ?_, fun id' hne => ?_⟩
  · rw [GetMsg_fst, lookup_NewMsg_self]; rfl
  · rw [GetAck_fst, lookup_NewMsg_self]; rfl
  · exact lookup_NewMsg_of_ne s (some m) hne

theorem NewMsg_replaces_witness :
    "a" ∈ ackedSlot.slots ∧
      (GetAck ackedSlot "a").1 = some worldMsg ∧
      len (NewMsg ackedSlot (.ok "a") (some emptyMsg)).2 = len ackedSlot ∧
      (GetMsg (NewMsg ackedSlot (.ok "a") (some emptyMsg)).2 "a").1 = some emptyMsg ∧
      (GetAck (NewMsg ackedSlot (.ok "a") (some emptyMsg)).2 "a").1 = none :=
  ⟨by decide, by decide,
    (NewMsg_replaces ackedSlot emptyMsg "a" (by decide)).2.1,
    (NewMsg_replaces ackedSlot emptyMsg "a" (by decide)).2.2.1,
    (NewMsg_replaces ackedSlot emptyMsg "a" (by decide)).2.2.2.1⟩

end Xub
